import Mathlib

/-!
Verification of the code-daily computation core against its specification.

Dates: a valid `YYYY-MM-DD` string corresponds bijectively and
order-isomorphically to a day ordinal (days since 1970-01-01), and for valid
fixed-width date strings lexicographic string order coincides with
chronological order.  Modules that only compare, sort and step dates by whole
days (streak, history) therefore model a parsed date as an `Int` ordinal;
the stats module, which inspects the month number, models a parsed date as an
explicit `(year, month, day)` record.  A `none` date stands for a
missing/empty/`"unknown"` (and, where the source skips them, unparseable)
date string.
-/

namespace CodeDaily

/-! ## Streak calculator (src/streak_calculator.py) -/

/-- A commit event as seen by `calculate_streak`: only the `date` field is
read (`event.get("date")`), `none` for a missing/empty date string. -/
structure StreakEvent where
  date : Option Int
deriving Repr, DecidableEq

structure StreakResult where
  current_streak : Nat
  longest_streak : Nat
  streak_active : Bool
  last_commit_date : Option Int
  commit_dates : List Int
deriving Repr, DecidableEq

/-- Python `sorted(set(dates), reverse=True)`: deduplicate, then sort descending
(string sort on valid dates = chronological sort on ordinals). -/
def sortDatesDesc (l : List Int) : List Int :=
  l.dedup.insertionSort (· ≥ ·)

/-- The backward walk of `_calculate_current_streak`: `current` is the date
counted last, `streak` the count so far.  A date exactly one day earlier
extends the streak, a strictly earlier date is a gap and stops the walk, and
a duplicate of the cursor is skipped without counting. -/
def currentStreakLoop : List Int → Int → Nat → Nat
  | [], _, streak => streak
  | d :: rest, current, streak =>
    if d = current - 1 then currentStreakLoop rest d (streak + 1)
    else if d < current - 1 then streak
    else currentStreakLoop rest current streak

/-- Source `_calculate_current_streak(commit_dates, today)`: 0 unless the most
recent date is today or yesterday, else the backward consecutive count. -/
def _calculate_current_streak (commit_dates : List Int) (today : Int) : Nat :=
  match commit_dates with
  | [] => 0
  | most_recent :: rest =>
    let yesterday := today - 1
    if most_recent ≠ today ∧ most_recent ≠ yesterday then 0
    else currentStreakLoop rest most_recent 1

/-- The pairwise scan of `_calculate_longest_streak`: `prev` is the previous
(later) date, `cur` the running streak, `longest` the maximum seen. -/
def longestStreakLoop : List Int → Int → Nat → Nat → Nat
  | [], _, _, longest => longest
  | d :: rest, prev, cur, longest =>
    if prev - d = 1 then longestStreakLoop rest d (cur + 1) (max longest (cur + 1))
    else longestStreakLoop rest d 1 longest

/-- Source `_calculate_longest_streak(commit_dates)` over a descending list. -/
def _calculate_longest_streak (commit_dates : List Int) : Nat :=
  match commit_dates with
  | [] => 0
  | [_] => 1
  | d :: rest => longestStreakLoop rest d 1 1

/-- Source `calculate_streak(commit_events, today)` from src/streak_calculator.py. -/
def calculate_streak (commit_events : List StreakEvent) (today : Int) :
    StreakResult :=
  match commit_events with
  | [] => ⟨0, 0, false, none, []⟩
  | _ :: _ =>
    match sortDatesDesc (commit_events.filterMap (·.date)) with
    | [] => ⟨0, 0, false, none, []⟩
    | last_commit_date :: rest =>
      let commit_dates := last_commit_date :: rest
      let streak_active := last_commit_date == today
      let current_streak := _calculate_current_streak commit_dates today
      let longest_streak :=
        max (_calculate_longest_streak commit_dates) current_streak
      ⟨current_streak, longest_streak, streak_active,
        some last_commit_date, commit_dates⟩

/-- Claim C8 — Streak monotonicity: for every list of commit events and every
reference date `today`, the result of `calculate_streak` satisfies
`longest_streak ≥ current_streak`. -/
theorem streak_longest_ge_current (commit_events : List StreakEvent)
    (today : Int) :
    (calculate_streak commit_events today).longest_streak ≥
      (calculate_streak commit_events today).current_streak := by
  unfold calculate_streak
  cases commit_events with
  | nil => simp
  | cons e es =>
    cases h : sortDatesDesc ((e :: es).filterMap (·.date)) with
    | nil => simp
    | cons d ds => simp

/-- Claim C4 — Streak grace period: whenever the deduplicated, descending
date list is nonempty and its most recent date is `today - 2` or earlier,
`calculate_streak` reports `current_streak = 0`, and `longest_streak` equals
the historical longest-run scan over the dates alone (which never consults
`today`). -/
theorem streak_grace_period (commit_events : List StreakEvent)
    (today d : Int) (ds : List Int)
    (h : sortDatesDesc (commit_events.filterMap (·.date)) = d :: ds)
    (h2 : d ≤ today - 2) :
    (calculate_streak commit_events today).current_streak = 0 ∧
    (calculate_streak commit_events today).longest_streak =
      _calculate_longest_streak (d :: ds) := by
  have hne : d ≠ today ∧ d ≠ today - 1 := by constructor <;> omega
  cases commit_events with
  | nil => simp [sortDatesDesc, List.dedup] at h
  | cons e es =>
    unfold calculate_streak
    rw [h]
    have hcur : _calculate_current_streak (d :: ds) today = 0 := by
      simp [_calculate_current_streak, hne.1, hne.2]
    simp [hcur]

/-- Witness for `streak_grace_period` at commit dates {5, 4, 3} with
`today = 7`: the most recent date 5 equals `today - 2`, so the current streak
is 0 while the historical scan still sees the 3-day run. -/
theorem streak_grace_period_witness :
    (calculate_streak [⟨some 5⟩, ⟨some 3⟩, ⟨some 4⟩] 7).current_streak = 0 ∧
    (calculate_streak [⟨some 5⟩, ⟨some 3⟩, ⟨some 4⟩] 7).longest_streak =
      _calculate_longest_streak [5, 4, 3] :=
  streak_grace_period [⟨some 5⟩, ⟨some 3⟩, ⟨some 4⟩] 7 5 [4, 3]
    (by decide) (by decide)

/-! ## Stats calculator (src/stats_calculator.py) -/

/-- A parsed `YYYY-MM-DD` calendar date. -/
structure Date where
  year : Int
  month : Nat
  day : Nat
deriving Repr, DecidableEq

/-- Day ordinal of a civil date (days since 1970-01-01), the standard
days-from-civil algorithm with truncating integer division; `datetime.date`
comparison and `timedelta` arithmetic act on this ordinal. -/
def Date.toOrd (dt : Date) : Int :=
  let y : Int := if dt.month ≤ 2 then dt.year - 1 else dt.year
  let m : Int := dt.month
  let d : Int := dt.day
  let era : Int := (if y ≥ 0 then y else y - 399) / 400
  let yoe : Int := y - era * 400
  let mp : Int := (m + 9) % 12
  let doy : Int := (153 * mp + 2) / 5 + d - 1
  let doe : Int := yoe * 365 + yoe / 4 - yoe / 100 + doy
  era * 146097 + doe - 719468

/-- Python `date.weekday()` with Monday = 0: ordinal 0 (1970-01-01) was a
Thursday. -/
def Date.weekday (dt : Date) : Int :=
  (dt.toOrd + 3) % 7

/-- A commit event as seen by `calculate_stats`: `date` is `none` for a
missing/empty/`"unknown"`/unparseable date string, and `commit_count`
defaults to 0 when absent. -/
structure StatsEvent where
  date : Option Date
  commit_count : Nat
deriving Repr, DecidableEq

structure StatsResult where
  commits_today : Nat
  commits_this_week : Nat
  commits_this_month : Nat
  commits_last_7_days : Nat
  commits_last_30_days : Nat
  total_commits : Nat
deriving Repr, DecidableEq

/-- The event loop of `calculate_stats`: each parseable-dated event adds its
`commit_count` to the total and to every bucket its date falls into; events
with `none` dates are skipped entirely. -/
def statsLoop (today : Date) (week_start week_end month_start
    seven_days_ago thirty_days_ago : Int) :
    List StatsEvent → StatsResult
  | [] => ⟨0, 0, 0, 0, 0, 0⟩
  | event :: rest =>
    let r := statsLoop today week_start week_end month_start
      seven_days_ago thirty_days_ago rest
    match event.date with
    | none => r
    | some d =>
      let o := d.toOrd
      let c := event.commit_count
      ⟨r.commits_today + (if d = today then c else 0),
       r.commits_this_week + (if week_start ≤ o ∧ o ≤ week_end then c else 0),
       r.commits_this_month +
         (if month_start ≤ o ∧ d.month = today.month then c else 0),
       r.commits_last_7_days +
         (if seven_days_ago ≤ o ∧ o ≤ today.toOrd then c else 0),
       r.commits_last_30_days +
         (if thirty_days_ago ≤ o ∧ o ≤ today.toOrd then c else 0),
       r.total_commits + c⟩

/-- Source `calculate_stats(commit_events, today)` from src/stats_calculator.py:
week boundary is the Monday of today's ISO week, month boundary the first of
today's month, rolling windows include today plus 6 resp. 29 prior days. -/
def calculate_stats (commit_events : List StatsEvent) (today : Date) :
    StatsResult :=
  let week_start := today.toOrd - today.weekday
  let week_end := week_start + 6
  let month_start := Date.toOrd ⟨today.year, today.month, 1⟩
  let seven_days_ago := today.toOrd - 6
  let thirty_days_ago := today.toOrd - 29
  statsLoop today week_start week_end month_start seven_days_ago
    thirty_days_ago commit_events

/-- Generic description of the loop's total: the sum of `commit_count` over
events with a parseable date, independent of all the bucket boundaries. -/
theorem statsLoop_total (today : Date) (ws we ms sv th : Int)
    (commit_events : List StatsEvent) :
    (statsLoop today ws we ms sv th commit_events).total_commits =
      ((commit_events.filter (fun e => e.date.isSome)).map
        (·.commit_count)).sum := by
  induction commit_events with
  | nil => rfl
  | cons e rest ih =>
    cases hd : e.date with
    | none => simp [statsLoop, hd, ih]
    | some d => simp [statsLoop, hd, ih, Nat.add_comm]

/-- Claim C7 — Stats total invariant: `total_commits` equals the sum of
`commit_count` over exactly the events with a parseable date, and the value
does not depend on the reference date `today`. -/
theorem stats_total_invariant (commit_events : List StatsEvent)
    (today today' : Date) :
    (calculate_stats commit_events today).total_commits =
      ((commit_events.filter (fun e => e.date.isSome)).map
        (·.commit_count)).sum ∧
    (calculate_stats commit_events today).total_commits =
      (calculate_stats commit_events today').total_commits := by
  constructor
  · exact statsLoop_total ..
  · rw [calculate_stats, calculate_stats, statsLoop_total, statsLoop_total]

/-- The month-bucket condition actually checked by the source: on/after the
first of today's month AND the same month number as today — which does not
exclude a date with the same month number in a later year. -/
def inMonthBucket (today : Date) (d : Date) : Bool :=
  Date.toOrd ⟨today.year, today.month, 1⟩ ≤ d.toOrd ∧ d.month = today.month

/-- Counterexample to claim C2 as stated: with `today = 2025-06-15`, an event
dated 2026-06-10 lies in a different calendar month (June of a *later* year),
yet `calculate_stats` counts its 5 commits in `commits_this_month`, because
the event is on/after 2025-06-01 and its month number equals 6. -/
theorem stats_month_counterexample :
    (calculate_stats [⟨some ⟨2026, 6, 10⟩, 5⟩] ⟨2025, 6, 15⟩).commits_this_month
      = 5 ∧
    (⟨2026, 6, 10⟩ : Date).year ≠ (⟨2025, 6, 15⟩ : Date).year := by
  constructor
  · decide
  · decide

/-- Claim C2 as amended: `commits_this_month` equals the sum of
`commit_count` over exactly those parseable-dated events whose date is on or
after the first of today's month and whose month number equals today's —
a condition that admits same-month-number dates of later years. -/
theorem stats_month_bucket (commit_events : List StatsEvent) (today : Date) :
    (calculate_stats commit_events today).commits_this_month =
      ((commit_events.filter (fun e =>
          match e.date with
          | some d => inMonthBucket today d
          | none => false)).map (·.commit_count)).sum := by
  rw [calculate_stats]
  induction commit_events with
  | nil => rfl
  | cons e rest ih =>
    cases hd : e.date with
    | none => simp [statsLoop, hd, ih]
    | some d =>
      by_cases hb : inMonthBucket today d
      · have hb' := hb
        simp only [inMonthBucket, decide_eq_true_eq] at hb'
        simp [statsLoop, hd, ih, hb, hb', Nat.add_comm]
      · have hb' := hb
        simp only [inMonthBucket, decide_eq_true_eq] at hb'
        simp [statsLoop, hd, ih, hb, hb']

/-! ## History calculator (src/history_calculator.py) -/

/-- A commit event as seen by `calculate_history`: `date` is `none` for a
missing/empty date string (date strings that never match a window day cannot
influence the window entries or `max_count`, which is taken over the window
only), `commit_count` defaults to 0 when absent. -/
structure HistEvent where
  date : Option Int
  commit_count : Nat
deriving Repr, DecidableEq

structure HistoryDay where
  date : Int
  count : Nat
  level : Nat
deriving Repr, DecidableEq

structure HistoryResult where
  days : List HistoryDay
  period_start : Int
  period_end : Int
  total_days : Nat
  max_count : Nat
deriving Repr, DecidableEq

/-- Source `_calculate_level(count)`: fixed intensity breakpoints 0, 1, 2-3, 4-5,
6+. -/
def _calculate_level (count : Nat) : Nat :=
  if count = 0 then 0
  else if count = 1 then 1
  else if count ≤ 3 then 2
  else if count ≤ 5 then 3
  else 4

/-- The `commits_by_date` aggregation map: total `commit_count` of the events
dated `d`. -/
def commitsByDate (commit_events : List HistEvent) (d : Int) : Nat :=
  ((commit_events.filter (fun e => e.date == some d)).map
    (·.commit_count)).sum

/-- Source `calculate_history(commit_events, days, today)` from
src/history_calculator.py: one entry per day of the window
`[today - (days-1), today]`, oldest first, with `max_count` the maximum
single-day count within the window. -/
def calculate_history (commit_events : List HistEvent) (days : Nat)
    (today : Int) : HistoryResult :=
  let start_date := today - ((days : Int) - 1)
  let day_list := (List.range days).map (fun (i : Nat) =>
    let current_date := start_date + (i : Int)
    let count := commitsByDate commit_events current_date
    { date := current_date, count := count,
      level := _calculate_level count : HistoryDay })
  { days := day_list,
    period_start := start_date,
    period_end := today,
    total_days := days,
    max_count := (day_list.map (·.count)).foldl max 0 }

/-- Claim C6 — History window invariant: for a requested window length
`days ≥ 1` the `days` list has exactly `days` entries and the entry at index
`i` carries date `today - (days-1) + i`; hence the dates are strictly
ascending consecutive calendar days, starting at `today - (days-1)` and
ending at `today`. -/
theorem history_window_invariant (commit_events : List HistEvent)
    (days : Nat) (today : Int) (h : 1 ≤ days) :
    (calculate_history commit_events days today).days.length = days ∧
    (∀ i, i < days →
      ((calculate_history commit_events days today).days[i]?.map
        (fun e => e.date)) = some (today - ((days : Int) - 1) + i)) ∧
    ((calculate_history commit_events days today).days.map
      (fun e => e.date)).getLast? = some today := by
  have hdates :
      (calculate_history commit_events days today).days.map (fun e => e.date) =
        (List.range days).map
          (fun (i : Nat) => today - ((days : Int) - 1) + (i : Int)) := by
    simp only [calculate_history, List.map_map]
    rfl
  refine ⟨?_, ?_, ?_⟩
  · simp only [calculate_history, List.length_map, List.length_range]
  · intro i hi
    have h2 := congrArg (fun l => l[i]?) hdates
    simp only [List.getElem?_map] at h2
    rw [h2, List.getElem?_range hi]
    rfl
  · rw [hdates, List.getLast?_eq_getElem?, List.length_map, List.length_range,
      List.getElem?_map, List.getElem?_range (by omega : days - 1 < days)]
    simp only [Option.map_some']
    congr 1
    omega

/-- Witness for `history_window_invariant` with an empty event list, a
3-day window and `today = 10`: three entries dated 8, 9, 10. -/
theorem history_window_invariant_witness :
    (calculate_history [] 3 10).days.length = 3 ∧
    (∀ (i : Nat), i < 3 →
      ((calculate_history [] 3 10).days[i]?.map (fun e => e.date)) =
        some (10 - ((3 : Int) - 1) + (i : Int))) ∧
    ((calculate_history [] 3 10).days.map (fun e => e.date)).getLast? =
      some 10 :=
  history_window_invariant [] 3 10 (by decide)

/-! ## Achievements (src/achievements.py) -/

structure Achievement where
  id : String
  name : String
  emoji : String
  description : String
  category : String
  threshold : Nat
deriving Repr, DecidableEq

/-- The five streak-based achievement definitions, in source order. -/
def STREAK_ACHIEVEMENTS : List Achievement :=
  [⟨"streak_3", "First Steps", "🔥", "Maintain a 3-day coding streak",
      "streak", 3⟩,
   ⟨"streak_7", "Week Warrior", "🏆", "Maintain a 7-day coding streak",
      "streak", 7⟩,
   ⟨"streak_14", "Fortnight Fighter", "📅", "Maintain a 14-day coding streak",
      "streak", 14⟩,
   ⟨"streak_30", "Monthly Master", "⭐", "Maintain a 30-day coding streak",
      "streak", 30⟩,
   ⟨"streak_100", "Century Coder", "💯", "Maintain a 100-day coding streak",
      "streak", 100⟩]

/-- The five commit-count achievement definitions, in source order. -/
def COMMIT_ACHIEVEMENTS : List Achievement :=
  [⟨"first_commit", "Hello World", "👋", "Make your first commit",
      "commits", 1⟩,
   ⟨"commits_10", "Getting Started", "🌱", "Make 10 total commits",
      "commits", 10⟩,
   ⟨"commits_50", "Halfway Hero", "🚀", "Make 50 total commits",
      "commits", 50⟩,
   ⟨"commits_100", "Century Club", "💯", "Make 100 total commits",
      "commits", 100⟩,
   ⟨"commits_500", "Commit Champion", "👑", "Make 500 total commits",
      "commits", 500⟩]

def ACHIEVEMENTS : List Achievement :=
  STREAK_ACHIEVEMENTS ++ COMMIT_ACHIEVEMENTS

/-- The loop body of `check_achievements`: skip unlocked ids, compare streak
definitions against `longest_streak`, commit definitions against
`total_commits`, keep source order. -/
def checkLoop (longest_streak total_commits : Nat)
    (unlocked_ids : List String) : List Achievement → List Achievement
  | [] => []
  | a :: rest =>
    let r := checkLoop longest_streak total_commits unlocked_ids rest
    if a.id ∈ unlocked_ids then r
    else if a.category = "streak" then
      (if longest_streak ≥ a.threshold then a :: r else r)
    else if a.category = "commits" then
      (if total_commits ≥ a.threshold then a :: r else r)
    else r

/-- Source `check_achievements(current_streak, longest_streak, total_commits,
unlocked_ids)` from src/achievements.py; `current_streak` is accepted but
never consulted. -/
def check_achievements (current_streak longest_streak total_commits : Nat)
    (unlocked_ids : List String) : List Achievement :=
  let _ := current_streak
  checkLoop longest_streak total_commits unlocked_ids ACHIEVEMENTS

/-- The specification's newly-unlocked predicate: not already unlocked, and
streak definitions meet `longest_streak` while commit definitions meet
`total_commits`. -/
def newlyUnlocked (longest_streak total_commits : Nat)
    (unlocked_ids : List String) (a : Achievement) : Bool :=
  ¬ a.id ∈ unlocked_ids ∧
    ((a.category = "streak" ∧ longest_streak ≥ a.threshold) ∨
     (a.category = "commits" ∧ total_commits ≥ a.threshold))

/-- The loop is exactly a filter by the newly-unlocked predicate. -/
theorem checkLoop_eq_filter (longest_streak total_commits : Nat)
    (unlocked_ids : List String) (l : List Achievement) :
    checkLoop longest_streak total_commits unlocked_ids l =
      l.filter (newlyUnlocked longest_streak total_commits unlocked_ids) := by
  induction l with
  | nil => rfl
  | cons a rest ih =>
    by_cases hu : a.id ∈ unlocked_ids
    · simp [checkLoop, ih, List.filter_cons, newlyUnlocked, hu]
    · by_cases hs : a.category = "streak"
      · by_cases hth : longest_streak ≥ a.threshold
        · simp [checkLoop, ih, List.filter_cons, newlyUnlocked, hu, hs, hth]
        · have hns : ¬ a.category = "commits" := by rw [hs]; decide
          simp [checkLoop, ih, List.filter_cons, newlyUnlocked, hu, hs, hth,
            hns]
      · by_cases hc : a.category = "commits"
        · by_cases hth : total_commits ≥ a.threshold
          · simp [checkLoop, ih, List.filter_cons, newlyUnlocked, hu, hs, hc,
              hth]
          · simp [checkLoop, ih, List.filter_cons, newlyUnlocked, hu, hs, hc,
              hth]
        · simp [checkLoop, ih, List.filter_cons, newlyUnlocked, hu, hs, hc]

/-- Claim C5 — `check_achievements` returns exactly the not-yet-unlocked
definitions whose threshold is met (streak definitions against
`longest_streak`, commit definitions against `total_commits`), in the fixed
definition order; the result never depends on `current_streak`, and the
definition list is the five streak achievements with ascending thresholds
3, 7, 14, 30, 100 followed by the five commit achievements with ascending
thresholds 1, 10, 50, 100, 500. -/
theorem check_achievements_spec (current_streak longest_streak total_commits
      current_streak' : Nat) (unlocked_ids : List String) :
    check_achievements current_streak longest_streak total_commits
        unlocked_ids =
      ACHIEVEMENTS.filter
        (newlyUnlocked longest_streak total_commits unlocked_ids) ∧
    check_achievements current_streak longest_streak total_commits
        unlocked_ids =
      check_achievements current_streak' longest_streak total_commits
        unlocked_ids ∧
    ACHIEVEMENTS.map (fun a => (a.category, a.threshold)) =
      [("streak", 3), ("streak", 7), ("streak", 14), ("streak", 30),
       ("streak", 100), ("commits", 1), ("commits", 10), ("commits", 50),
       ("commits", 100), ("commits", 500)] :=
  ⟨checkLoop_eq_filter .., rfl, by decide⟩

/-! ## Quest store (src/storage.py) and quest engine (src/quest_manager.py)

The SQLite-backed `CommitStorage` quest/idea tables are modelled as in-memory
lists with autoincrement id counters: `create_*` appends a fresh-id row,
`get_*` looks a row up by id, `update_quest_status` rewrites the status of
the rows with the given id. -/

structure StoredQuest where
  id : Nat
  title : String
  source : String
  source_ref : Option String
  description : Option String
  status : String
deriving Repr, DecidableEq

structure StoredIdea where
  id : Nat
  content : String
  status : String
deriving Repr, DecidableEq

structure Store where
  quests : List StoredQuest
  ideas : List StoredIdea
  next_quest_id : Nat
  next_idea_id : Nat
deriving Repr, DecidableEq

/-- Source `CommitStorage.get_quest(quest_id)`. -/
def get_quest (store : Store) (quest_id : Nat) : Option StoredQuest :=
  store.quests.find? (fun q => q.id == quest_id)

/-- Source `CommitStorage.create_quest(title, source, source_ref, description)`:
inserts a new `pending` quest and returns the store plus the new row id. -/
def create_quest (store : Store) (title : String) (source : String)
    (source_ref : Option String) (description : Option String) :
    Store × Nat :=
  ({ store with
      quests := store.quests ++
        [⟨store.next_quest_id, title, source, source_ref, description,
          "pending"⟩],
      next_quest_id := store.next_quest_id + 1 },
   store.next_quest_id)

/-- Source `CommitStorage.update_quest_status(quest_id, status)`: rewrites the
status of the rows with the given id, reporting whether any row matched. -/
def update_quest_status (store : Store) (quest_id : Nat) (status : String) :
    Store × Bool :=
  ({ store with
      quests := store.quests.map
        (fun q => if q.id == quest_id then { q with status := status } else q) },
   store.quests.any (fun q => q.id == quest_id))

/-- Source `CommitStorage.get_idea(idea_id)`. -/
def get_idea (store : Store) (idea_id : Nat) : Option StoredIdea :=
  store.ideas.find? (fun i => i.id == idea_id)

/-- Source `CommitStorage.create_idea(content)`: inserts a new `active` idea and
returns the store plus the new row id. -/
def create_idea (store : Store) (content : String) : Store × Nat :=
  ({ store with
      ideas := store.ideas ++ [⟨store.next_idea_id, content, "active"⟩],
      next_idea_id := store.next_idea_id + 1 },
   store.next_idea_id)

/-- Modelled from the spec: `quest_exists_by_source_ref(source, source_ref)
→ bool` — "the dedup predicate ingestion relies on" (§4.6).  The method is
called by `QuestManager.sync_github_issues` / `sync_todo_comments` and
exercised by tests/test_quests.py, but its body is absent from
src/src/storage.py; per the spec and its tests it holds exactly when some
quest row has this `source` and `source_ref` pair. -/
def quest_exists_by_source_ref (store : Store) (source : String)
    (source_ref : String) : Bool :=
  store.quests.any
    (fun q => q.source == source && q.source_ref == some source_ref)

/-! ### Priority scoring (QuestManager.calculate_priority_score) -/

/-- A quest record as read by `calculate_priority_score`.  `age_days` is the
whole-day difference `(now - created_at).days`, `none` when `created_at` is
missing or unparseable (the age bonus is then skipped); `description`,
`ai_description` and `difficulty` are `none` when the key is absent or null.
The enrichment fields are part of the record schema (spec §3, storage
tests) even though the src scoring body never reads them. -/
structure Quest where
  age_days : Option Int
  source : String
  description : Option String
  ai_description : Option String
  difficulty : Option Nat
deriving Repr, DecidableEq

/-- The `source_scores` lookup with default 0. -/
def source_scores (s : String) : Int :=
  if s = "github_issue" then 3
  else if s = "todo_scan" then 2
  else if s = "ideas_md" then 1
  else 0

/-- Python string truthiness for an optional field: present and nonempty. -/
def truthyStr : Option String → Bool
  | some s => s ≠ ""
  | none => false

/-- Source `QuestManager.calculate_priority_score(quest, previous_source)` from
src/src/quest_manager.py: age bonus `min(age_days, 10)`, source bonus,
+2 for a truthy description, +3 when a truthy `previous_source` differs
from the quest's source.  (No term inspects `ai_description` or
`difficulty`.) -/
def calculate_priority_score (quest : Quest)
    (previous_source : Option String) : Int :=
  let score : Int := 0
  let score := score +
    (match quest.age_days with
     | some age_days => min age_days 10
     | none => 0)
  let score := score + source_scores quest.source
  let score := score + (if truthyStr quest.description then 2 else 0)
  let score := score +
    (match previous_source with
     | some p => if p ≠ "" ∧ quest.source ≠ p then 3 else 0
     | none => 0)
  score

/-! ### skip_quest (QuestManager.skip_quest) -/

structure SkipResult where
  success : Bool
  error : Option String
  quest : Option StoredQuest
  idea : Option StoredIdea
deriving Repr, DecidableEq

/-- The idea content spawned by skip-with-save: the quest title, plus
`" - "` and the description when the description is truthy. -/
def skipIdeaContent (quest : StoredQuest) : String :=
  quest.title ++
    (match quest.description with
     | some d => if d ≠ "" then " - " ++ d else ""
     | none => "")

/-- Source `QuestManager.skip_quest(quest_id, action, save_as_idea)` from
src/src/quest_manager.py: structured not-found failure, `archive`→archived
else skipped, optional idea spawning. -/
def skip_quest (store : Store) (quest_id : Nat) (action : String)
    (save_as_idea : Bool) : Store × SkipResult :=
  match get_quest store quest_id with
  | none => (store, ⟨false, some "Quest not found", none, none⟩)
  | some quest =>
    let status := if action = "archive" then "archived" else "skipped"
    let store1 := (update_quest_status store quest_id status).1
    let base : SkipResult := ⟨true, none, get_quest store1 quest_id, none⟩
    if save_as_idea then
      let created := create_idea store1 (skipIdeaContent quest)
      (created.1, { base with idea := get_idea created.1 created.2 })
    else (store1, base)

/-! ### Ingestion (QuestManager.sync_github_issues / sync_todo_comments) -/

/-- A GitHub issue record as read by `sync_github_issues`:
`pull_request = true` models the presence of the `pull_request` key,
`html_url = ""` models a missing/empty `html_url`, `title`/`body` are
`none` when the key is absent (or, for `body`, null). -/
structure Issue where
  pull_request : Bool
  html_url : String
  title : Option String
  body : Option String
deriving Repr, DecidableEq

/-- Repo-name extraction from
`https://github.com/owner/repo/issues/123`-shaped URLs. -/
def extractRepoName (url : String) : String :=
  let segs := url.splitOn "github.com/"
  if segs.length ≥ 2 then
    let parts := (segs.getD 1 "").splitOn "/"
    if parts.length ≥ 2 then parts.getD 0 "" ++ "/" ++ parts.getD 1 ""
    else ""
  else ""

/-- The synced quest title: `[owner/repo] title` when a repo name was
extracted, with `"Untitled issue"` as the default title. -/
def issueTitle (issue : Issue) : String :=
  let title := issue.title.getD "Untitled issue"
  let repo_name := extractRepoName issue.html_url
  if repo_name ≠ "" then "[" ++ repo_name ++ "] " ++ title else title

/-- The synced quest description: the body truncated at 200 characters
(197 + `"..."`), and `none` instead of an empty string. -/
def issueDescription (issue : Issue) : Option String :=
  let description := issue.body.getD ""
  let description :=
    if description.length > 200 then description.take 197 ++ "..."
    else description
  if description ≠ "" then some description else none

/-- Source `QuestManager.sync_github_issues(issues)` from src/src/quest_manager.py:
left-to-right over the list, dropping pull requests and URL-less items,
skipping already-synced URLs, creating a quest otherwise; returns the final
store with the `added` and `skipped` counts. -/
def sync_github_issues : Store → List Issue → Store × Nat × Nat
  | store, [] => (store, 0, 0)
  | store, issue :: rest =>
    if issue.pull_request then sync_github_issues store rest
    else if issue.html_url = "" then sync_github_issues store rest
    else if quest_exists_by_source_ref store "github_issue" issue.html_url
    then
      let r := sync_github_issues store rest
      (r.1, r.2.1, r.2.2 + 1)
    else
      let store' := (create_quest store (issueTitle issue) "github_issue"
        (some issue.html_url) (issueDescription issue)).1
      let r := sync_github_issues store' rest
      (r.1, r.2.1 + 1, r.2.2)

/-- A `TodoComment` from the scanner. -/
structure TodoComment where
  file_path : String
  line_number : Nat
  comment_type : String
  content : String
deriving Repr, DecidableEq

/-- Source `TodoComment.source_ref`: the `file:line` reference key. -/
def TodoComment.source_ref (t : TodoComment) : String :=
  t.file_path ++ ":" ++ toString t.line_number

/-- The synced TODO quest title `[TYPE] content`, truncated at 200
characters. -/
def todoTitle (t : TodoComment) : String :=
  let title := "[" ++ t.comment_type ++ "] " ++ t.content
  if title.length > 200 then title.take 197 ++ "..." else title

/-- Source `QuestManager.sync_todo_comments(todos)` from src/src/quest_manager.py:
left-to-right, skipping already-synced `file:line` references, creating a
`todo_scan` quest (no description) otherwise. -/
def sync_todo_comments : Store → List TodoComment → Store × Nat × Nat
  | store, [] => (store, 0, 0)
  | store, todo :: rest =>
    if quest_exists_by_source_ref store "todo_scan" todo.source_ref then
      let r := sync_todo_comments store rest
      (r.1, r.2.1, r.2.2 + 1)
    else
      let store' := (create_quest store (todoTitle todo) "todo_scan"
        (some todo.source_ref) none).1
      let r := sync_todo_comments store' rest
      (r.1, r.2.1 + 1, r.2.2)

/-! ### Theorems about the quest engine -/

/-- Claim C1 (code-bug evidence): the priority score computed by the source
is entirely independent of the `ai_description` and `difficulty` fields, and
in particular the quests of tests/test_llm_client.py with and without an AI
description (resp. with difficulty 2 vs 1) score identically — the claimed
+1 AI-enrichment and +1 difficulty-sweet-spot bonuses are absent from the
code. -/
theorem priority_score_ignores_ai_fields (quest : Quest)
    (a : Option String) (dif : Option Nat)
    (previous_source : Option String) :
    calculate_priority_score
        { quest with ai_description := a, difficulty := dif }
        previous_source =
      calculate_priority_score quest previous_source ∧
    calculate_priority_score
        ⟨some 0, "manual", none, some "Enhanced description", none⟩ none =
      calculate_priority_score ⟨some 0, "manual", none, none, none⟩ none ∧
    calculate_priority_score ⟨some 0, "manual", none, none, some 2⟩ none =
      calculate_priority_score ⟨some 0, "manual", none, none, some 1⟩ none :=
  ⟨rfl, rfl, rfl⟩

/-- Lookup `find?` by id over an id-preserving status rewrite. -/
theorem find?_update_status (l : List StoredQuest) (n : Nat) (st : String) :
    (l.map (fun q => if q.id == n then { q with status := st } else q)).find?
        (fun q => q.id == n) =
      (l.find? (fun q => q.id == n)).map
        (fun q => { q with status := st }) := by
  induction l with
  | nil => rfl
  | cons a t ih =>
    by_cases h : a.id = n
    · subst h
      simp [List.find?]
    · have hb : (a.id == n) = false := beq_eq_false_iff_ne.mpr h
      have hn : ¬ ((a.id == n) = true) := by simp [hb]
      have ha : (if a.id == n then { a with status := st } else a) = a := by
        rw [hb]; rfl
      rw [List.map_cons, ha,
        List.find?_cons_of_neg (p := fun (q : StoredQuest) => q.id == n) _ hn,
        List.find?_cons_of_neg (p := fun (q : StoredQuest) => q.id == n) _ hn,
        ih]

/-- Lookup `find?` by id finds a freshly appended row whose id is new. -/
theorem find?_append_fresh (l : List StoredIdea) (x : StoredIdea)
    (h : ∀ i ∈ l, i.id ≠ x.id) :
    (l ++ [x]).find? (fun i => i.id == x.id) = some x := by
  rw [List.find?_append]
  have h2 : l.find? (fun i => i.id == x.id) = none := by
    rw [List.find?_eq_none]
    intro i hi
    simpa using h i hi
  rw [h2]
  simp [List.find?]

/-- Looking up the idea just created by `create_idea` returns the new
`active` row, provided no existing idea already carries the fresh id. -/
theorem get_idea_create (store : Store) (content : String)
    (h : ∀ i ∈ store.ideas, i.id ≠ store.next_idea_id) :
    get_idea (create_idea store content).1 (create_idea store content).2 =
      some ⟨store.next_idea_id, content, "active"⟩ :=
  find?_append_fresh store.ideas ⟨store.next_idea_id, content, "active"⟩ h

/-- Claim C9 — `skip_quest` error handling and status mapping: an absent id
yields a structured `success = false` failure with the store untouched (the
embedding is a total function, so no exception is possible); a present id
is re-stored with status `archived` exactly when the action is `"archive"`
and `skipped` otherwise; and with `save_as_idea` the result carries a new
idea whose content is the title, extended by `" - "` and the description
when one is present and non-empty. -/
theorem skip_quest_spec (store : Store) (quest_id : Nat) (action : String)
    (save_as_idea : Bool) :
    (get_quest store quest_id = none →
      skip_quest store quest_id action save_as_idea =
        (store, ⟨false, some "Quest not found", none, none⟩)) ∧
    (∀ q, get_quest store quest_id = some q →
      (skip_quest store quest_id action save_as_idea).2.success = true ∧
      get_quest (skip_quest store quest_id action save_as_idea).1 quest_id =
        some { q with
          status := if action = "archive" then "archived" else "skipped" } ∧
      (save_as_idea = true →
        (∀ i ∈ store.ideas, i.id ≠ store.next_idea_id) →
        (skip_quest store quest_id action save_as_idea).2.idea =
          some ⟨store.next_idea_id, skipIdeaContent q, "active"⟩)) := by
  constructor
  · intro hnone
    simp [skip_quest, hnone]
  · intro q hq
    have hup : get_quest (update_quest_status store quest_id
        (if action = "archive" then "archived" else "skipped")).1 quest_id =
        some { q with
          status := if action = "archive" then "archived" else "skipped" } := by
      show (store.quests.map _).find? _ = _
      rw [find?_update_status]
      have hqf : store.quests.find? (fun r => r.id == quest_id) = some q := hq
      rw [hqf, Option.map_some']
    refine ⟨?_, ?_, ?_⟩
    · cases save_as_idea with
      | false =>
        simp only [skip_quest, hq]
        rw [if_neg Bool.false_ne_true]
      | true =>
        simp only [skip_quest, hq]
        rw [if_pos trivial]
    · cases save_as_idea with
      | false =>
        simp only [skip_quest, hq]
        rw [if_neg Bool.false_ne_true]
        exact hup
      | true =>
        simp only [skip_quest, hq]
        rw [if_pos trivial]
        exact hup
    · intro hs hnew
      subst hs
      simp only [skip_quest, hq]
      rw [if_pos trivial]
      exact get_idea_create _ (skipIdeaContent q) hnew

/-- Witness for `skip_quest_spec` on a two-quest store: quest 1 is archived
by action `"archive"`, the result is a success, and the saved idea is the
title joined to the description. -/
theorem skip_quest_spec_witness :
    (skip_quest
        ⟨[⟨1, "Fix bug", "manual", none, some "in parser", "pending"⟩],
          [], 2, 1⟩ 1 "archive" true).2.success = true ∧
    get_quest (skip_quest
        ⟨[⟨1, "Fix bug", "manual", none, some "in parser", "pending"⟩],
          [], 2, 1⟩ 1 "archive" true).1 1 =
      some ⟨1, "Fix bug", "manual", none, some "in parser", "archived"⟩ ∧
    (skip_quest
        ⟨[⟨1, "Fix bug", "manual", none, some "in parser", "pending"⟩],
          [], 2, 1⟩ 1 "archive" true).2.idea =
      some ⟨1, "Fix bug - in parser", "active"⟩ ∧
    skip_quest
        ⟨[⟨1, "Fix bug", "manual", none, some "in parser", "pending"⟩],
          [], 2, 1⟩ 7 "archive" true =
      (⟨[⟨1, "Fix bug", "manual", none, some "in parser", "pending"⟩],
          [], 2, 1⟩, ⟨false, some "Quest not found", none, none⟩) := by
  have h := skip_quest_spec
    ⟨[⟨1, "Fix bug", "manual", none, some "in parser", "pending"⟩],
      [], 2, 1⟩ 1 "archive" true
  have habsent := (skip_quest_spec
    ⟨[⟨1, "Fix bug", "manual", none, some "in parser", "pending"⟩],
      [], 2, 1⟩ 7 "archive" true).1 (by decide)
  have hpresent := h.2
    ⟨1, "Fix bug", "manual", none, some "in parser", "pending"⟩ (by decide)
  refine ⟨hpresent.1, ?_, ?_, habsent⟩
  · have := hpresent.2.1
    simpa using this
  · have := hpresent.2.2 rfl (by decide)
    have hc : skipIdeaContent
        ⟨1, "Fix bug", "manual", none, some "in parser", "pending"⟩ =
        "Fix bug - in parser" := by decide
    rw [hc] at this
    exact this

/-- Effect of `create_quest` on the dedup predicate: the new store has a
`(source, source_ref)` match iff the old one had, or the created row
matches. -/
theorem quest_exists_create (store : Store) (t src : String)
    (ref : Option String) (descr : Option String) (s r : String) :
    quest_exists_by_source_ref (create_quest store t src ref descr).1 s r =
      (quest_exists_by_source_ref store s r ||
        (src == s && ref == some r)) := by
  simp [quest_exists_by_source_ref, create_quest]

/-- Syncing GitHub issues only adds quests: any `(source, source_ref)` match
survives. -/
theorem sync_github_mono (l : List Issue) (store : Store) (s r : String)
    (h : quest_exists_by_source_ref store s r = true) :
    quest_exists_by_source_ref (sync_github_issues store l).1 s r = true := by
  induction l generalizing store with
  | nil => exact h
  | cons i rest ih =>
    by_cases hpr : i.pull_request = true
    · simp only [sync_github_issues]
      rw [if_pos hpr]
      exact ih store h
    · by_cases hurl : i.html_url = ""
      · simp only [sync_github_issues]
        rw [if_neg hpr, if_pos hurl]
        exact ih store h
      · by_cases hex : quest_exists_by_source_ref store "github_issue"
            i.html_url = true
        · simp only [sync_github_issues]
          rw [if_neg hpr, if_neg hurl, if_pos hex]
          exact ih store h
        · simp only [sync_github_issues]
          rw [if_neg hpr, if_neg hurl, if_neg hex]
          refine ih _ ?_
          rw [quest_exists_create, h, Bool.true_or]

/-- First sync over pairwise-distinct, not-yet-stored, valid issues: every
item is added, none skipped, and afterwards every URL is present in the
store. -/
theorem sync_github_fresh (l : List Issue) (store : Store)
    (hpr : ∀ i ∈ l, i.pull_request = false)
    (hurl : ∀ i ∈ l, i.html_url ≠ "")
    (hnd : (l.map (·.html_url)).Nodup)
    (hex : ∀ i ∈ l, quest_exists_by_source_ref store "github_issue"
      i.html_url = false) :
    (sync_github_issues store l).2.1 = l.length ∧
    (sync_github_issues store l).2.2 = 0 ∧
    ∀ i ∈ l, quest_exists_by_source_ref (sync_github_issues store l).1
      "github_issue" i.html_url = true := by
  induction l generalizing store with
  | nil => exact ⟨rfl, rfl, by simp⟩
  | cons i rest ih =>
    have hpri : ¬ i.pull_request = true := by
      simp [hpr i (List.mem_cons_self i rest)]
    have hurli : ¬ i.html_url = "" := hurl i (List.mem_cons_self i rest)
    have hexi : ¬ quest_exists_by_source_ref store "github_issue"
        i.html_url = true := by
      simp [hex i (List.mem_cons_self i rest)]
    have hnotin : i.html_url ∉ rest.map (·.html_url) :=
      (List.nodup_cons.mp hnd).1
    have hnd' : (rest.map (·.html_url)).Nodup := (List.nodup_cons.mp hnd).2
    have hex' : ∀ j ∈ rest, quest_exists_by_source_ref
        (create_quest store (issueTitle i) "github_issue" (some i.html_url)
          (issueDescription i)).1 "github_issue" j.html_url = false := by
      intro j hj
      rw [quest_exists_create, hex j (List.mem_cons_of_mem i hj)]
      have hne : i.html_url ≠ j.html_url := by
        intro hcontra
        exact hnotin (hcontra ▸ List.mem_map_of_mem (·.html_url) hj)
      simp [hne]
    have hrec := ih (create_quest store (issueTitle i) "github_issue"
        (some i.html_url) (issueDescription i)).1
      (fun j hj => hpr j (List.mem_cons_of_mem i hj))
      (fun j hj => hurl j (List.mem_cons_of_mem i hj)) hnd' hex'
    simp only [sync_github_issues]
    rw [if_neg hpri, if_neg hurli, if_neg hexi]
    refine ⟨by simp [hrec.1], by simp [hrec.2.1], ?_⟩
    intro j hj
    rcases List.mem_cons.mp hj with hji | hjr
    · subst hji
      refine sync_github_mono rest _ _ _ ?_
      rw [quest_exists_create]
      simp
    · exact hrec.2.2 j hjr

/-- Second sync when every (valid) URL is already stored: everything is
skipped, nothing added, and the store is unchanged. -/
theorem sync_github_all_exist (l : List Issue) (store : Store)
    (hpr : ∀ i ∈ l, i.pull_request = false)
    (hurl : ∀ i ∈ l, i.html_url ≠ "")
    (hex : ∀ i ∈ l, quest_exists_by_source_ref store "github_issue"
      i.html_url = true) :
    sync_github_issues store l = (store, 0, l.length) := by
  induction l with
  | nil => rfl
  | cons i rest ih =>
    have hpri : ¬ i.pull_request = true := by
      simp [hpr i (List.mem_cons_self i rest)]
    have hurli : ¬ i.html_url = "" := hurl i (List.mem_cons_self i rest)
    have hexi := hex i (List.mem_cons_self i rest)
    have hrec := ih (fun j hj => hpr j (List.mem_cons_of_mem i hj))
      (fun j hj => hurl j (List.mem_cons_of_mem i hj))
      (fun j hj => hex j (List.mem_cons_of_mem i hj))
    simp only [sync_github_issues]
    rw [if_neg hpri, if_neg hurli, if_pos hexi, hrec]
    rfl

/-- Claim C3 — Reference-based, idempotent ingestion dedup: syncing a list
of N valid (non-pull-request, URL-bearing, pairwise-distinct-URL) issues not
yet in the store adds N and skips 0, and an immediately repeated sync of the
same list adds 0 and skips N; and a TODO item whose `file:line` reference
was already synced is reported skipped on a second sync even when its
content text changed. -/
theorem sync_dedup_idempotent :
    (∀ (store : Store) (issues : List Issue),
      (∀ i ∈ issues, i.pull_request = false) →
      (∀ i ∈ issues, i.html_url ≠ "") →
      (issues.map (·.html_url)).Nodup →
      (∀ i ∈ issues, quest_exists_by_source_ref store "github_issue"
        i.html_url = false) →
      (sync_github_issues store issues).2.1 = issues.length ∧
      (sync_github_issues store issues).2.2 = 0 ∧
      (sync_github_issues (sync_github_issues store issues).1
        issues).2.1 = 0 ∧
      (sync_github_issues (sync_github_issues store issues).1
        issues).2.2 = issues.length) ∧
    (∀ (store : Store) (t t' : TodoComment),
      quest_exists_by_source_ref store "todo_scan" t.source_ref = false →
      t'.source_ref = t.source_ref →
      (sync_todo_comments store [t]).2 = (1, 0) ∧
      (sync_todo_comments (sync_todo_comments store [t]).1 [t']).2 =
        (0, 1)) := by
  constructor
  · intro store issues hpr hurl hnd hex
    have h1 := sync_github_fresh issues store hpr hurl hnd hex
    have h2 := sync_github_all_exist issues
      (sync_github_issues store issues).1 hpr hurl h1.2.2
    exact ⟨h1.1, h1.2.1, by rw [h2], by rw [h2]⟩
  · intro store t t' hex href
    have hexn : ¬ quest_exists_by_source_ref store "todo_scan"
        t.source_ref = true := by simp [hex]
    have hstep : sync_todo_comments store [t] =
        ((create_quest store (todoTitle t) "todo_scan" (some t.source_ref)
          none).1, 1, 0) := by
      simp only [sync_todo_comments]
      rw [if_neg hexn]
    constructor
    · rw [hstep]
    · rw [hstep]
      have hex2 : quest_exists_by_source_ref
          (create_quest store (todoTitle t) "todo_scan" (some t.source_ref)
            none).1 "todo_scan" t'.source_ref = true := by
        rw [href, quest_exists_create]
        simp
      simp only [sync_todo_comments]
      rw [if_pos hex2]

/-- Witness for `sync_dedup_idempotent`: two distinct valid issues synced
into an empty store (2 added / 0 skipped, then 0 added / 2 skipped), and a
TODO at `app.py:10` re-synced with changed content (1 added / 0 skipped,
then 0 added / 1 skipped). -/
theorem sync_dedup_idempotent_witness :
    ((sync_github_issues ⟨[], [], 1, 1⟩
        [⟨false, "https://github.com/u/r/issues/1", some "A", none⟩,
         ⟨false, "https://github.com/u/r/issues/2", none, some "B"⟩]).2.1 = 2 ∧
      (sync_github_issues ⟨[], [], 1, 1⟩
        [⟨false, "https://github.com/u/r/issues/1", some "A", none⟩,
         ⟨false, "https://github.com/u/r/issues/2", none, some "B"⟩]).2.2 = 0 ∧
      (sync_github_issues (sync_github_issues ⟨[], [], 1, 1⟩
        [⟨false, "https://github.com/u/r/issues/1", some "A", none⟩,
         ⟨false, "https://github.com/u/r/issues/2", none, some "B"⟩]).1
        [⟨false, "https://github.com/u/r/issues/1", some "A", none⟩,
         ⟨false, "https://github.com/u/r/issues/2", none, some "B"⟩]).2.1 = 0 ∧
      (sync_github_issues (sync_github_issues ⟨[], [], 1, 1⟩
        [⟨false, "https://github.com/u/r/issues/1", some "A", none⟩,
         ⟨false, "https://github.com/u/r/issues/2", none, some "B"⟩]).1
        [⟨false, "https://github.com/u/r/issues/1", some "A", none⟩,
         ⟨false, "https://github.com/u/r/issues/2", none, some "B"⟩]).2.2 = 2) ∧
    ((sync_todo_comments ⟨[], [], 1, 1⟩
        [⟨"app.py", 10, "TODO", "fix login"⟩]).2 = (1, 0) ∧
      (sync_todo_comments (sync_todo_comments ⟨[], [], 1, 1⟩
          [⟨"app.py", 10, "TODO", "fix login"⟩]).1
        [⟨"app.py", 10, "TODO", "totally new content"⟩]).2 = (0, 1)) :=
  ⟨sync_dedup_idempotent.1 ⟨[], [], 1, 1⟩
      [⟨false, "https://github.com/u/r/issues/1", some "A", none⟩,
       ⟨false, "https://github.com/u/r/issues/2", none, some "B"⟩]
      (by decide) (by decide) (by decide) (by decide),
    sync_dedup_idempotent.2 ⟨[], [], 1, 1⟩
      ⟨"app.py", 10, "TODO", "fix login"⟩
      ⟨"app.py", 10, "TODO", "totally new content"⟩
      (by decide) (by decide)⟩

/-- Claim C10 — Sync accounting: `added + skipped` equals the number of
input items that are not pull requests and carry a non-empty `html_url`;
dropped items (pull requests, URL-less items) are counted in neither. -/
theorem sync_github_accounting (store : Store) (issues : List Issue) :
    (sync_github_issues store issues).2.1 +
        (sync_github_issues store issues).2.2 =
      (issues.filter
        (fun i => !i.pull_request && !(i.html_url == ""))).length := by
  induction issues generalizing store with
  | nil => rfl
  | cons i rest ih =>
    by_cases hpr : i.pull_request = true
    · simp only [sync_github_issues]
      rw [if_pos hpr, List.filter_cons]
      simp only [hpr]
      simp [ih store]
    · by_cases hurl : i.html_url = ""
      · simp only [sync_github_issues]
        rw [if_neg hpr, if_pos hurl, List.filter_cons]
        have hb : (i.html_url == "") = true := by simp [hurl]
        simp only [hb]
        simp only [Bool.not_eq_true] at hpr
        simp [hpr, ih store]
      · have hb : (i.html_url == "") = false := by simp [hurl]
        simp only [Bool.not_eq_true] at hpr
        by_cases hex : quest_exists_by_source_ref store "github_issue"
            i.html_url = true
        · simp only [sync_github_issues]
          rw [hpr]
          simp only [Bool.false_eq_true, if_false]
          rw [if_neg hurl, if_pos hex, List.filter_cons]
          simp only [hpr, hb]
          simp only [Bool.not_false, Bool.true_and, if_pos]
          have h := ih store
          simp only [List.length_cons]
          omega
        · simp only [sync_github_issues]
          rw [hpr]
          simp only [Bool.false_eq_true, if_false]
          rw [if_neg hurl, if_neg hex, List.filter_cons]
          simp only [hpr, hb]
          simp only [Bool.not_false, Bool.true_and, if_pos]
          have h := ih (create_quest store (issueTitle i) "github_issue"
            (some i.html_url) (issueDescription i)).1
          simp only [List.length_cons]
          omega

end CodeDaily
